import Mathlib

/-!
Verification of the VintageDownloader front-end (yt-downloader repository).

The repository contains two variants of the same React component:
* `src/src/App.tsx` — the "simple" variant, keeping all state locally
  (`url`, `selectedFormat`, `isAnalyzing`, `downloadProgress`, `isDownloading`,
  `status`) and simulating analysis/download with timers;
* `src/unnamed/part_000` — the "persistence-backed" variant, which additionally
  creates a `DownloadJob` record in a Firestore document store, mirrors it into
  the UI via a snapshot listener and keeps `jobId`, `currentDownloadUrl`,
  `errorMessage`, `userId`, `isAuthReady` in local state.

This file is a shallow embedding of the logic of both variants:
* the URL validity regex `/^(https?:\/\/)?(www\.)?(youtube\.com|youtu\.be)\/.+/`
  is embedded as a matcher on `List Char` (JavaScript `.` does not match the
  line terminators U+000A, U+000D, U+2028, U+2029);
* each event handler becomes a pure function on an explicit state record;
* the `setInterval` progress simulators become recursive functions over the
  list of random increments (`Math.random() * 15` produces a rational in
  `[0, 15)`, modelled as a `ℚ` parameter);
* the Firestore writes of the persistence variant become a step relation
  `JobStep` on `JobRecord` values, with `JobReachable` the reachable records
  of a single job document.

Machine numbers are modelled as `ℚ` (progress accumulators) and `ℤ`
(`Math.round` results written to the store).
-/

/-! ### URL validity check

`App.tsx` lines 28–31 / `part_000` lines 108–111:

```
const isValidYouTubeUrl = (url: string) => {
  const youtubeRegex = /^(https?:\/\/)?(www\.)?(youtube\.com|youtu\.be)\/.+/;
  return youtubeRegex.test(url);
};
```

The regex is anchored at the start only.  The alternations/options have
pairwise-distinct literal heads, so backtracking is captured by the
disjunctions below.  JavaScript `.` (no `s` flag) matches any character
except the four line terminators. -/

/-- Semantics of JavaScript `.` without the `s` flag: any character except
LF, CR, LINE SEPARATOR and PARAGRAPH SEPARATOR. -/
def jsDot (c : Char) : Bool :=
  !(c == '\n' || c == '\r' || c == '\u2028' || c == '\u2029')

/-- Matcher for `.+` at the current position: at least one character must be
matched by `.` (further characters are irrelevant because the regex is not
end-anchored). -/
def matchDotPlus : List Char → Bool
  | c :: _ => jsDot c
  | [] => false

/-- Matcher for `\/.+` at the current position. -/
def matchSlashRest (s : List Char) : Bool :=
  decide (s.take 1 = ['/']) && matchDotPlus (s.drop 1)

/-- Matcher for `(youtube\.com|youtu\.be)\/.+` at the current position. -/
def matchHost (s : List Char) : Bool :=
  (decide (s.take 11 = "youtube.com".data) && matchSlashRest (s.drop 11)) ||
  (decide (s.take 8 = "youtu.be".data) && matchSlashRest (s.drop 8))

/-- Matcher for `(www\.)?(youtube\.com|youtu\.be)\/.+` at the current
position (the optional group is tried with and without). -/
def matchWww (s : List Char) : Bool :=
  (decide (s.take 4 = "www.".data) && matchHost (s.drop 4)) || matchHost s

/-- Matcher for the whole regex body
`(https?:\/\/)?(www\.)?(youtube\.com|youtu\.be)\/.+` anchored at the start
(`https?` tries the greedy `https` first, then `http`, then no protocol). -/
def matchProto (s : List Char) : Bool :=
  (decide (s.take 8 = "https://".data) && matchWww (s.drop 8)) ||
  (decide (s.take 7 = "http://".data) && matchWww (s.drop 7)) ||
  matchWww s

/-- Embedding of `isValidYouTubeUrl` from both variants. -/
def isValidYouTubeUrl (url : String) : Bool :=
  matchProto url.data

/-! ### The spec-side description of the URL check

Modelled from the spec's words: "a string matches if, after optionally
stripping a leading protocol and an optional `www.` prefix, it begins with
one of two known host names followed by `/` and at least one further
character". -/

/-- Strip an optional leading `http://` or `https://`. -/
def stripProtocol (s : List Char) : List Char :=
  if s.take 7 = "http://".data then s.drop 7
  else if s.take 8 = "https://".data then s.drop 8
  else s

/-- Strip an optional leading `www.`. -/
def stripWwwDot (s : List Char) : List Char :=
  if s.take 4 = "www.".data then s.drop 4 else s

/-- Spec-side host condition, literally "begins with `youtube.com` or
`youtu.be` followed by `/` and at least one further character" — any
character counts. -/
def hostShapeSpec (r : List Char) : Bool :=
  (decide (r.take 12 = "youtube.com/".data) && !(r.drop 12).isEmpty) ||
  (decide (r.take 9 = "youtu.be/".data) && !(r.drop 9).isEmpty)

/-- The URL-shape check exactly as the claim words it. -/
def urlShapeSpec (s : List Char) : Bool :=
  hostShapeSpec (stripWwwDot (stripProtocol s))

/-- Amended host condition: the character following the `/` must additionally
not be a line terminator, because JavaScript `.` does not match those. -/
def hostShapeAmended (r : List Char) : Bool :=
  (decide (r.take 12 = "youtube.com/".data) && matchDotPlus (r.drop 12)) ||
  (decide (r.take 9 = "youtu.be/".data) && matchDotPlus (r.drop 9))

/-- The amended URL-shape description. -/
def urlShapeAmended (s : List Char) : Bool :=
  hostShapeAmended (stripWwwDot (stripProtocol s))

/-! ### Job status

Both variants use the UI status union
`'idle' | 'analyzing' | 'ready' | 'downloading' | 'complete' | 'error'`.
(The persistence variant's `DownloadJob` type also declares an unused
`'pending'` literal; no code path ever produces it, so it is omitted.) -/

/-- The status enumeration shared by both variants. -/
inductive Status
  | idle
  | analyzing
  | ready
  | downloading
  | complete
  | error
  deriving DecidableEq

/-! ### The simple variant (`src/src/App.tsx`)

Local component state and the event handlers `handleAnalyze`,
`handleDownload`, `resetForm`, the URL `onChange`, the format radio
`onChange`, and the two timer callbacks. -/

/-- Local state of the simple variant (`useState` hooks of `App.tsx`,
lines 13–18), plus `timerActive` modelling whether the `setInterval`
handle created by `handleDownload` is still live. -/
structure SimpleState where
  url : String
  selectedFormat : String
  isAnalyzing : Bool
  downloadProgress : ℚ
  isDownloading : Bool
  status : Status
  timerActive : Bool
  deriving DecidableEq

/-- The initial state of the component (all `useState` initialisers). -/
def simpleInit : SimpleState :=
  { url := "", selectedFormat := "", isAnalyzing := false, downloadProgress := 0,
    isDownloading := false, status := Status.idle, timerActive := false }

/-- URL input `onChange` (App.tsx line 116): stores the text, nothing else. -/
def simpleUrlChange (s : SimpleState) (v : String) : SimpleState :=
  { s with url := v }

/-- Format radio `onChange` (App.tsx line 173): stores the chosen id. -/
def simpleSelectFormat (s : SimpleState) (fid : String) : SimpleState :=
  { s with selectedFormat := fid }

/-- `handleAnalyze` (App.tsx lines 33–41): reject invalid URLs with
`error`, otherwise enter `analyzing` (the 2-second timeout is modelled
separately by `simpleAnalyzeFinish`). -/
def simpleAnalyzeStart (s : SimpleState) : SimpleState :=
  if !(isValidYouTubeUrl s.url) then { s with status := Status.error }
  else { s with isAnalyzing := true, status := Status.analyzing }

/-- The analysis `setTimeout` callback (App.tsx lines 43–46). -/
def simpleAnalyzeFinish (s : SimpleState) : SimpleState :=
  { s with isAnalyzing := false, status := Status.ready }

/-- `handleDownload` (App.tsx lines 49–55): no-op when no format is
selected, otherwise enter `downloading` with progress 0 and start the
interval. -/
def simpleDownloadStart (s : SimpleState) : SimpleState :=
  if s.selectedFormat = "" then s
  else { s with isDownloading := true, status := Status.downloading,
                downloadProgress := 0, timerActive := true }

/-- One firing of the progress interval (App.tsx lines 58–66) with random
increment `inc = Math.random() * 15`:

```
setDownloadProgress(prev => {
  if (prev >= 100) {
    clearInterval(interval); setIsDownloading(false); setStatus('complete');
    return 100;
  }
  return prev + Math.random() * 15;
});
```

Note the guard reads the PREVIOUS value, not the new candidate. -/
def simpleTick (inc : ℚ) (s : SimpleState) : SimpleState :=
  if s.downloadProgress ≥ 100 then
    { s with downloadProgress := 100, isDownloading := false,
             status := Status.complete, timerActive := false }
  else
    { s with downloadProgress := s.downloadProgress + inc }

/-- The sequence of progress values published by successive interval
firings, given the list of random increments; the interval stops firing
once `clearInterval` has run. -/
def simpleTicks (s : SimpleState) : List ℚ → List ℚ
  | [] => []
  | inc :: rest =>
    if s.timerActive then
      let s' := simpleTick inc s
      s'.downloadProgress :: simpleTicks s' rest
    else []

/-- `resetForm` (App.tsx lines 70–75). -/
def simpleReset (s : SimpleState) : SimpleState :=
  { s with url := "", selectedFormat := "", downloadProgress := 0,
           status := Status.idle }

/-! ### The persistence-backed variant (`src/unnamed/part_000`)

A `DownloadJob` document per job id, event handlers writing to the store,
and a snapshot listener mirroring the record into local state. -/

/-- A persisted `DownloadJob` record (part_000 lines 24–33).  `progress`
is an integer because every written value is `0`, `100` or
`Math.round(currentProgress)`. -/
structure JobRecord where
  url : String
  selectedFormatId : String
  status : Status
  progress : ℤ
  downloadUrl : Option String
  errorMessage : Option String
  timestamp : ℕ
  userId : String
  deriving DecidableEq

/-- The record created by `handleAnalyze` (part_000 lines 135–142). -/
def initialJob (u uid : String) (ts : ℕ) : JobRecord :=
  { url := u, selectedFormatId := "", status := Status.analyzing, progress := 0,
    downloadUrl := none, errorMessage := none, timestamp := ts, userId := uid }

/-- The simulated result locator attached on completion (part_000 line 180):
`https://example.com/downloads/${jobId}_${selectedFormat}.mp4`. -/
def mockDownloadUrl (jid fmt : String) : String :=
  "https://example.com/downloads/" ++ jid ++ "_" ++ fmt ++ ".mp4"

/-- The merge written by the analysis timeout (part_000 line 148):
`{ status: 'ready', progress: 0, errorMessage: null }`. -/
def fbAnalyzeReadyWrite (r : JobRecord) : JobRecord :=
  { r with status := Status.ready, progress := 0, errorMessage := none }

/-- One Firestore merge applied to a job record, with the precondition
(the record status at the time the writing callback can run) under which
the variant issues it:

* `ready` — the analysis timeout (line 148);
* `startDownload` — `handleDownload`'s initial merge (line 169), only
  issued with a non-empty selected format;
* `tick` — a progress-interval merge with `currentProgress < 100`
  (line 190), writing `Math.round(currentProgress)`;
* `completed` — the clamping interval firing (lines 182–187);
* `failWrite` — the `handleDownload` catch handler (line 201), reachable
  only when the initial `downloading` merge threw, i.e. from `ready`. -/
inductive JobStep : JobRecord → JobRecord → Prop
  | ready {r : JobRecord} (h : r.status = Status.analyzing) :
      JobStep r (fbAnalyzeReadyWrite r)
  | startDownload {r : JobRecord} (fmt : String) (h : r.status = Status.ready)
      (hf : fmt ≠ "") :
      JobStep r { r with selectedFormatId := fmt, status := Status.downloading,
                         progress := 0, errorMessage := none }
  | tick {r : JobRecord} (c : ℚ) (h : r.status = Status.downloading)
      (hc : c < 100) :
      JobStep r { r with progress := round c }
  | completed {r : JobRecord} (jid : String) (h : r.status = Status.downloading) :
      JobStep r { r with status := Status.complete, progress := 100,
                         downloadUrl := some (mockDownloadUrl jid r.selectedFormatId),
                         errorMessage := none }
  | failWrite {r : JobRecord} (h : r.status = Status.ready) :
      JobStep r { r with status := Status.error,
                         errorMessage := some "Failed to start download." }

/-- Job records reachable from a freshly created job document. -/
inductive JobReachable : JobRecord → Prop
  | init (u uid : String) (ts : ℕ) : JobReachable (initialJob u uid ts)
  | step {r r' : JobRecord} : JobReachable r → JobStep r r' → JobReachable r'

/-- Local UI state of the persistence-backed variant (`useState` hooks of
part_000, lines 36–44). -/
structure FbUi where
  url : String
  selectedFormat : String
  jobId : Option String
  downloadProgress : ℤ
  status : Status
  currentDownloadUrl : Option String
  errorMessage : Option String
  userId : Option String
  isAuthReady : Bool
  deriving DecidableEq

/-- Initial UI state of the persistence variant. -/
def fbInit : FbUi :=
  { url := "", selectedFormat := "", jobId := none, downloadProgress := 0,
    status := Status.idle, currentDownloadUrl := none, errorMessage := none,
    userId := none, isAuthReady := false }

/-- The `authenticate` catch/finally path (part_000 lines 64–69): a failed
sign-in stores a message — without touching `status` — and marks auth
ready. -/
def fbAuthFail (s : FbUi) : FbUi :=
  { s with errorMessage := some "Authentication failed. Please try again.",
           isAuthReady := true }

/-- URL input `onChange` (part_000 lines 263–269): store the text; when the
machine is in `error` and the new text is valid, return to `idle` and clear
the message. -/
def fbUrlChange (s : FbUi) (v : String) : FbUi :=
  if s.status = Status.error ∧ isValidYouTubeUrl v = true then
    { s with url := v, status := Status.idle, errorMessage := none }
  else { s with url := v }

/-- `handleAnalyze` (part_000 lines 113–157).  Returns the new UI state and
the created job document, if any (`newJobId` and the `Date.now()` timestamp
are parameters of the model). -/
def fbHandleAnalyze (s : FbUi) (newJobId : String) (ts : ℕ) :
    FbUi × Option (String × JobRecord) :=
  if !(isValidYouTubeUrl s.url) then
    ({ s with status := Status.error,
              errorMessage := some "Please enter a valid YouTube URL." }, none)
  else
    match s.userId with
    | none =>
        ({ s with errorMessage := some "User not authenticated. Please wait or refresh." },
         none)
    | some uid =>
        ({ s with status := Status.analyzing, errorMessage := none,
                  selectedFormat := "", jobId := some newJobId },
         some (newJobId, initialJob s.url uid ts))

/-- The local `setStatus('ready')` in the analysis timeout
(part_000 line 149). -/
def fbAnalyzeFinish (s : FbUi) : FbUi :=
  { s with status := Status.ready }

/-- `handleDownload` (part_000 lines 159–170): early return unless a format
is selected and a job and user exist; otherwise enter `downloading` locally.
The boolean records whether the `downloading` merge was issued (its content
is `JobStep.startDownload`). -/
def fbHandleDownload (s : FbUi) : FbUi × Bool :=
  if s.selectedFormat = "" ∨ s.jobId = none ∨ s.userId = none then (s, false)
  else
    ({ s with status := Status.downloading, errorMessage := none,
              downloadProgress := 0, currentDownloadUrl := none }, true)

/-- The `onSnapshot` listener (part_000 lines 89–99): mirror the record into
local UI state. -/
def fbApplySnapshot (s : FbUi) (r : JobRecord) : FbUi :=
  { s with status := r.status, downloadProgress := r.progress,
           currentDownloadUrl := r.downloadUrl, errorMessage := r.errorMessage }

/-- `resetForm` (part_000 lines 206–214). -/
def fbReset (s : FbUi) : FbUi :=
  { s with url := "", selectedFormat := "", jobId := none, downloadProgress := 0,
           status := Status.idle, currentDownloadUrl := none, errorMessage := none }

/-- A single Firestore merge issued by the download interval: either a
progress update or the completing write carrying the result locator. -/
inductive FbWrite
  | progress (p : ℤ)
  | completed (p : ℤ) (url : String)
  deriving DecidableEq

/-- Progress value carried by a write. -/
def fbWriteProgress : FbWrite → ℤ
  | FbWrite.progress p => p
  | FbWrite.completed p _ => p

/-- The writes issued by the download interval of the persistence variant
(part_000 lines 172–193), given the accumulator `c` (`currentProgress`) and
the list of random increments:

```
currentProgress += Math.random() * 15;
if (currentProgress >= 100) {
  currentProgress = 100; clearInterval(interval);
  ... setDoc({ status: 'complete', progress: 100, downloadUrl: mock, ... })
} else {
  ... setDoc({ progress: Math.round(currentProgress) })
}
```

Here the guard reads the NEW candidate, and the interval stops on the same
firing that clamps to 100. -/
def fbTickWrites (jid fmt : String) : ℚ → List ℚ → List FbWrite
  | _, [] => []
  | c, inc :: rest =>
    if 100 ≤ c + inc then [FbWrite.completed 100 (mockDownloadUrl jid fmt)]
    else FbWrite.progress (round (c + inc)) :: fbTickWrites jid fmt (c + inc) rest

/-! ### A concrete execution of the simple variant

Used to exhibit executions below: the user pastes a valid URL, analyses,
selects `mp3-320`, downloads, and the interval fires with increments
`14, 14, ...` (all inside `[0, 15)`). -/

/-- State after analysing `https://youtu.be/abc123` and selecting
`mp3-320`. -/
def demoReady : SimpleState :=
  simpleSelectFormat
    (simpleAnalyzeFinish
      (simpleAnalyzeStart (simpleUrlChange simpleInit "https://youtu.be/abc123")))
    "mp3-320"

/-- State after pressing Start Download from `demoReady`. -/
def demoDownloading : SimpleState := simpleDownloadStart demoReady

/-- State after seven interval firings with increment 14 (progress 98). -/
def demoPre : SimpleState :=
  List.foldl (fun s i => simpleTick i s) demoDownloading [14, 14, 14, 14, 14, 14, 14]

/-- State after the eighth firing (previous value 98, increment 14). -/
def demoOvershoot : SimpleState := simpleTick 14 demoPre

/-- State after the ninth firing, which clamps and completes. -/
def demoComplete : SimpleState := simpleTick 1 demoOvershoot

/-- The progress values published by the interval during the run with
increments `14 × 8` followed by `1`. -/
def demoPublished : List ℚ :=
  simpleTicks demoDownloading [14, 14, 14, 14, 14, 14, 14, 14, 1]

/-- A persistence-variant UI state in `error`: the user typed `x` and
pressed Analyze. -/
def fbErrDemo : FbUi := (fbHandleAnalyze (fbUrlChange fbInit "x") "job1" 0).1

/-- The `onAuthStateChanged` callback for a signed-in user together with the
`finally` of `authenticate` (part_000 lines 67–78). -/
def fbAuthOk (s : FbUi) (uid : String) : FbUi :=
  { s with userId := some uid, isAuthReady := true }

/-- A simple-variant state holding an invalid URL. -/
def demoBadSimple : SimpleState := simpleUrlChange simpleInit "not a url"

/-- A persistence-variant state holding an invalid URL. -/
def demoBadFb : FbUi := fbUrlChange fbInit "not a url"

/-- A persistence-variant state with a valid URL and an authenticated user. -/
def demoFbAuthed : FbUi :=
  fbAuthOk (fbUrlChange fbInit "https://youtu.be/abc123") "uid1"

/-! ### Helper lemmas about `List.take` prefixes -/

/-- A shorter `take` is determined by a longer one. -/
theorem take_of_take_ge {l w : List Char} {m n : ℕ} (hmn : m ≤ n)
    (h : l.take n = w) : l.take m = w.take m := by
  rw [← h, List.take_take, inf_eq_left.mpr hmn]

/-- A longer `take` cannot equal `w` when a shorter one contradicts
`w`'s corresponding prefix. -/
theorem take_ne_of_small {l v w : List Char} {n m : ℕ} (hnm : n ≤ m)
    (hv : l.take n = v) (hne : w.take n ≠ v) : l.take m ≠ w := by
  intro h
  apply hne
  rw [← take_of_take_ge hnm h, hv]

/-- Splitting a `take (n+1)` prefix condition into a `take n` condition and a
single-character condition. -/
theorem take_split_one {l w : List Char} {c : Char} {n : ℕ} (hw : w.length = n) :
    l.take (n + 1) = w ++ [c] ↔ l.take n = w ∧ (l.drop n).take 1 = [c] := by
  rw [List.take_add]
  constructor
  · intro h
    have hlen := congrArg List.length h
    simp only [List.length_append, List.length_take, List.length_singleton, hw] at hlen
    have h1 : (l.take n).length = min n l.length := List.length_take n l
    have h2 : ((l.drop n).take 1).length = min 1 (l.drop n).length := List.length_take 1 (l.drop n)
    have hn : (l.take n).length = n := by omega
    have := List.append_inj h (by rw [hn, hw])
    exact ⟨this.1, this.2⟩
  · intro h
    rw [h.1, h.2]

/-- Distributing `decide` over a conjunction (local helper). -/
theorem decide_and_eq (p q : Prop) [Decidable p] [Decidable q] :
    decide (p ∧ q) = (decide p && decide q) := by
  by_cases hp : p <;> by_cases hq : q <;> simp [hp, hq]

/-! ### The regex matcher agrees with stripping the protocol and `www.`

The optional groups of the regex have pairwise-incompatible literal
prefixes, so the backtracking disjunctions collapse to the "strip one
optional prefix" reading of the spec. -/

/-- The `(www\.)?` alternation is equivalent to stripping `www.` first. -/
theorem matchWww_strip (r : List Char) : matchWww r = matchHost (stripWwwDot r) := by
  by_cases h4 : r.take 4 = "www.".data
  · have hc1 : r.take 11 ≠ "youtube.com".data :=
      take_ne_of_small (by norm_num) h4 (by decide)
    have hc2 : r.take 8 ≠ "youtu.be".data :=
      take_ne_of_small (by norm_num) h4 (by decide)
    simp [matchWww, stripWwwDot, matchHost, h4, hc1, hc2]
  · simp [matchWww, stripWwwDot, h4]

/-- The `(https?:\/\/)?` alternation is equivalent to stripping the protocol
first. -/
theorem matchProto_strip (l : List Char) :
    matchProto l = matchWww (stripProtocol l) := by
  by_cases h8 : l.take 8 = "https://".data
  · have h7 : l.take 7 ≠ "http://".data := by
      rw [take_of_take_ge (m := 7) (by norm_num) h8]; decide
    have hw4 : l.take 4 ≠ "www.".data := by
      rw [take_of_take_ge (m := 4) (by norm_num) h8]; decide
    have hh1 : l.take 11 ≠ "youtube.com".data :=
      take_ne_of_small (by norm_num) h8 (by decide)
    have hh2 : l.take 8 ≠ "youtu.be".data := by rw [h8]; decide
    simp [matchProto, stripProtocol, matchWww, matchHost, h8, h7, hw4, hh1, hh2]
  · by_cases h7 : l.take 7 = "http://".data
    · have hw4 : l.take 4 ≠ "www.".data := by
        rw [take_of_take_ge (m := 4) (by norm_num) h7]; decide
      have hh1 : l.take 11 ≠ "youtube.com".data :=
        take_ne_of_small (by norm_num) h7 (by decide)
      have hh2 : l.take 8 ≠ "youtu.be".data :=
        take_ne_of_small (by norm_num) h7 (by decide)
      simp [matchProto, stripProtocol, matchWww, matchHost, h8, h7, hw4, hh1, hh2]
    · simp [matchProto, stripProtocol, h8, h7]

/-- The host matcher is the amended host-shape condition. -/
theorem matchHost_split (r : List Char) : matchHost r = hostShapeAmended r := by
  have e1 : r.take 12 = "youtube.com/".data ↔
      r.take 11 = "youtube.com".data ∧ (r.drop 11).take 1 = ['/'] := by
    rw [show ("youtube.com/".data) = "youtube.com".data ++ ['/'] from by decide]
    exact take_split_one (by decide)
  have e2 : r.take 9 = "youtu.be/".data ↔
      r.take 8 = "youtu.be".data ∧ (r.drop 8).take 1 = ['/'] := by
    rw [show ("youtu.be/".data) = "youtu.be".data ++ ['/'] from by decide]
    exact take_split_one (by decide)
  simp only [matchHost, hostShapeAmended, matchSlashRest, e1, e2, decide_and_eq,
    Bool.and_assoc, List.drop_drop]

/-- The full matcher equals the amended spec-side shape description. -/
theorem matchProto_eq_amended (l : List Char) : matchProto l = urlShapeAmended l := by
  rw [matchProto_strip, matchWww_strip, matchHost_split, urlShapeAmended]

/-! ### Rounding helpers (`Math.round` is `round = ⌊x + 1/2⌋`) -/

/-- Rounding a nonnegative rational is nonnegative. -/
theorem round_nonneg_of_nonneg {x : ℚ} (h : 0 ≤ x) : 0 ≤ round x := by
  rw [round_eq, Int.le_floor]; push_cast; linarith

/-- Rounding a rational below 100 gives at most 100. -/
theorem round_le_hundred {x : ℚ} (h : x < 100) : round x ≤ 100 := by
  rw [round_eq, Int.floor_le_iff]; push_cast; linarith

/-- Rounding is monotone. -/
theorem round_mono_le {x y : ℚ} (h : x ≤ y) : round x ≤ round y := by
  rw [round_eq, round_eq]; exact Int.floor_mono (by linarith)

/-! ### Behaviour of the simulated download runs -/

/-- A cleared interval fires no more ticks. -/
theorem simpleTicks_inactive {s : SimpleState} (h : s.timerActive = false) :
    ∀ incs, simpleTicks s incs = [] := by
  intro incs
  cases incs with
  | nil => rfl
  | cons i rest => simp [simpleTicks, h]

/-- Every write of the persistence-variant interval carries a progress value
in `[0, 100]`, provided the accumulator starts nonnegative and all
increments are nonnegative. -/
theorem fbTickWrites_bounds (jid fmt : String) :
    ∀ (incs : List ℚ) (c : ℚ), 0 ≤ c → (∀ i ∈ incs, 0 ≤ i) →
      ∀ w ∈ fbTickWrites jid fmt c incs, 0 ≤ fbWriteProgress w ∧ fbWriteProgress w ≤ 100 := by
  intro incs
  induction incs with
  | nil => intro c _ _ w hw; simp [fbTickWrites] at hw
  | cons i rest ih =>
    intro c hc hall w hw
    by_cases h : (100 : ℚ) ≤ c + i
    · simp only [fbTickWrites, if_pos h, List.mem_singleton] at hw
      subst hw
      simp [fbWriteProgress]
    · have hi : (0 : ℚ) ≤ i := hall i (by simp)
      have hlt : c + i < 100 := not_le.mp h
      simp only [fbTickWrites, if_neg h, List.mem_cons] at hw
      rcases hw with hw | hw
      · subst hw
        exact ⟨round_nonneg_of_nonneg (by linarith), round_le_hundred hlt⟩
      · exact ih (c + i) (by linarith) (fun j hj => hall j (by simp [hj])) w hw

/-- The progress values written by the persistence-variant interval are
non-decreasing. -/
theorem fbTickWrites_chain (jid fmt : String) :
    ∀ (incs : List ℚ) (c : ℚ), 0 ≤ c → (∀ i ∈ incs, 0 ≤ i) →
      List.Chain' (fun a b => a ≤ b)
        ((fbTickWrites jid fmt c incs).map fbWriteProgress) := by
  intro incs
  induction incs with
  | nil => intro c _ _; simp [fbTickWrites]
  | cons i rest ih =>
    intro c hc hall
    by_cases h : (100 : ℚ) ≤ c + i
    · simp [fbTickWrites, if_pos h]
    · have hi : (0 : ℚ) ≤ i := hall i (by simp)
      have hlt : c + i < 100 := not_le.mp h
      simp only [fbTickWrites, if_neg h, List.map_cons]
      apply List.chain'_cons'.mpr
      refine ⟨?_, ih (c + i) (by linarith) (fun j hj => hall j (by simp [hj]))⟩
      intro y hy
      cases rest with
      | nil => simp [fbTickWrites] at hy
      | cons j rest2 =>
        by_cases h2 : (100 : ℚ) ≤ c + i + j
        · simp only [fbTickWrites, if_pos h2, List.map_cons, List.map_nil,
            List.head?_cons, Option.mem_def, Option.some.injEq] at hy
          subst hy
          simp [fbWriteProgress]
          exact round_le_hundred hlt
        · have hj : (0 : ℚ) ≤ j := hall j (by simp)
          simp only [fbTickWrites, if_neg h2, List.map_cons, List.head?_cons,
            Option.mem_def, Option.some.injEq] at hy
          subst hy
          simp [fbWriteProgress]
          exact round_mono_le (by linarith)

/-- Unfolding `simpleTick` when the previous value is below 100: the
candidate is published unclamped. -/
theorem simpleTick_of_lt {s : SimpleState} {inc : ℚ} (h : s.downloadProgress < 100) :
    simpleTick inc s = { s with downloadProgress := s.downloadProgress + inc } := by
  simp [simpleTick, not_le.mpr h]

/-- Unfolding `simpleTick` when the previous value has already reached 100:
clamp, stop the interval and complete. -/
theorem simpleTick_of_ge {s : SimpleState} {inc : ℚ} (h : 100 ≤ s.downloadProgress) :
    simpleTick inc s =
      { s with downloadProgress := 100, isDownloading := false,
               status := Status.complete, timerActive := false } := by
  simp [simpleTick, h]

/-- Every value published by the simple variant's interval lies in
`[0, 115)` when increments are drawn from `[0, 15)`. -/
theorem simpleTicks_bounds :
    ∀ (incs : List ℚ) (s : SimpleState), 0 ≤ s.downloadProgress →
      (∀ i ∈ incs, 0 ≤ i ∧ i < 15) →
      ∀ v ∈ simpleTicks s incs, 0 ≤ v ∧ v < 115 := by
  intro incs
  induction incs with
  | nil => intro s _ _ v hv; simp [simpleTicks] at hv
  | cons i rest ih =>
    intro s hs hall v hv
    by_cases ht : s.timerActive
    · rcases le_or_lt 100 s.downloadProgress with hp | hp
      · rw [show simpleTicks s (i :: rest) = (100 : ℚ) ::
              simpleTicks { s with downloadProgress := 100, isDownloading := false, status := Status.complete, timerActive := false } rest
            from by simp [simpleTicks, ht, simpleTick_of_ge hp]] at hv
        rw [simpleTicks_inactive rfl rest] at hv
        simp only [List.mem_singleton] at hv
        subst hv
        norm_num
      · have hi := hall i (by simp)
        rw [show simpleTicks s (i :: rest) = (s.downloadProgress + i) ::
              simpleTicks { s with downloadProgress := s.downloadProgress + i } rest
            from by simp [simpleTicks, ht, simpleTick_of_lt hp]] at hv
        simp only [List.mem_cons] at hv
        rcases hv with hv | hv
        · subst hv
          exact ⟨by linarith [hi.1], by linarith [hi.2]⟩
        · exact ih { s with downloadProgress := s.downloadProgress + i }
            (by simp; linarith [hi.1]) (fun j hj => hall j (by simp [hj])) v hv
    · simp [simpleTicks, ht] at hv

/-- The first value published from an active interval state. -/
theorem simpleTicks_head_cons {s : SimpleState} (ht : s.timerActive = true)
    (j : ℚ) (rest : List ℚ) :
    (simpleTicks s (j :: rest)).head?
      = some (if 100 ≤ s.downloadProgress then (100 : ℚ) else s.downloadProgress + j) := by
  by_cases hp : (100 : ℚ) ≤ s.downloadProgress
  · simp [simpleTicks, ht, simpleTick_of_ge hp, hp]
  · simp [simpleTicks, ht, simpleTick_of_lt (not_le.mp hp), hp]

/-- The published values of the simple variant's interval are pairwise
non-decreasing, except that a value that overshot 100 is followed by the
final clamped 100. -/
theorem simpleTicks_chain :
    ∀ (incs : List ℚ) (s : SimpleState), 0 ≤ s.downloadProgress →
      (∀ i ∈ incs, 0 ≤ i ∧ i < 15) →
      List.Chain' (fun a b => a ≤ b ∨ (100 < a ∧ b = 100)) (simpleTicks s incs) := by
  intro incs
  induction incs with
  | nil => intro s _ _; simp [simpleTicks]
  | cons i rest ih =>
    intro s hs hall
    by_cases ht : s.timerActive
    · rcases le_or_lt 100 s.downloadProgress with hp | hp
      · rw [show simpleTicks s (i :: rest) = (100 : ℚ) ::
              simpleTicks { s with downloadProgress := 100, isDownloading := false, status := Status.complete, timerActive := false } rest
            from by simp [simpleTicks, ht, simpleTick_of_ge hp]]
        rw [simpleTicks_inactive rfl rest]
        simp
      · have hi := hall i (by simp)
        rw [show simpleTicks s (i :: rest) = (s.downloadProgress + i) ::
              simpleTicks { s with downloadProgress := s.downloadProgress + i } rest
            from by simp [simpleTicks, ht, simpleTick_of_lt hp]]
        apply List.chain'_cons'.mpr
        refine ⟨?_, ih _ (by simp; linarith [hi.1]) (fun j hj => hall j (by simp [hj]))⟩
        intro y hy
        cases rest with
        | nil => simp [simpleTicks] at hy
        | cons j rest2 =>
          have hj := hall j (by simp)
          have ht1 : ({ s with downloadProgress := s.downloadProgress + i } : SimpleState).timerActive = true := ht
          rw [simpleTicks_head_cons ht1 j rest2] at hy
          simp only [Option.mem_def, Option.some.injEq] at hy
          subst hy
          rcases le_or_lt 100 (s.downloadProgress + i) with hp2 | hp2
          · rw [if_pos hp2]
            rcases le_or_lt (s.downloadProgress + i) 100 with hle | hgt
            · left; exact hle
            · right; exact ⟨hgt, rfl⟩
          · rw [if_neg (not_le.mpr hp2)]
            left
            linarith [hj.1]
    · simp [simpleTicks, ht]

/-! ### Evaluating the concrete execution -/

/-- Explicit value of `demoReady`. -/
theorem demoReady_eq :
    demoReady =
      { url := "https://youtu.be/abc123", selectedFormat := "mp3-320",
        isAnalyzing := false, downloadProgress := 0, isDownloading := false,
        status := Status.ready, timerActive := false } := by
  have hv : isValidYouTubeUrl "https://youtu.be/abc123" = true := by decide
  simp [demoReady, simpleSelectFormat, simpleAnalyzeFinish, simpleAnalyzeStart,
    simpleUrlChange, simpleInit, hv]

/-- Explicit value of `demoDownloading`. -/
theorem demoDownloading_eq :
    demoDownloading =
      { url := "https://youtu.be/abc123", selectedFormat := "mp3-320",
        isAnalyzing := false, downloadProgress := 0, isDownloading := true,
        status := Status.downloading, timerActive := true } := by
  rw [demoDownloading, demoReady_eq]
  simp [simpleDownloadStart]

/-- Explicit value of `demoPre`: progress 98, still downloading. -/
theorem demoPre_eq :
    demoPre =
      { url := "https://youtu.be/abc123", selectedFormat := "mp3-320",
        isAnalyzing := false, downloadProgress := 98, isDownloading := true,
        status := Status.downloading, timerActive := true } := by
  rw [demoPre, demoDownloading_eq]
  norm_num [List.foldl_cons, List.foldl_nil, simpleTick]

/-- Explicit value of `demoOvershoot`: the published value is 112 and the
machine continues downloading. -/
theorem demoOvershoot_eq :
    demoOvershoot =
      { url := "https://youtu.be/abc123", selectedFormat := "mp3-320",
        isAnalyzing := false, downloadProgress := 112, isDownloading := true,
        status := Status.downloading, timerActive := true } := by
  rw [demoOvershoot, demoPre_eq]
  norm_num [simpleTick]

/-- Explicit value of `demoComplete`: the following firing clamps to 100 and
completes. -/
theorem demoComplete_eq :
    demoComplete =
      { url := "https://youtu.be/abc123", selectedFormat := "mp3-320",
        isAnalyzing := false, downloadProgress := 100, isDownloading := false,
        status := Status.complete, timerActive := false } := by
  rw [demoComplete, demoOvershoot_eq]
  norm_num [simpleTick]

/-- The published progress sequence of the demo run. -/
theorem demoPublished_eq :
    demoPublished = [14, 28, 42, 56, 70, 84, 98, 112, 100] := by
  rw [demoPublished, demoDownloading_eq]
  norm_num [simpleTicks, simpleTick]

/-- Explicit value of `fbErrDemo`. -/
theorem fbErrDemo_eq :
    fbErrDemo =
      { url := "x", selectedFormat := "", jobId := none, downloadProgress := 0,
        status := Status.error, currentDownloadUrl := none,
        errorMessage := some "Please enter a valid YouTube URL.",
        userId := none, isAuthReady := false } := by
  have hv : isValidYouTubeUrl "x" = false := by decide
  simp [fbErrDemo, fbHandleAnalyze, fbUrlChange, fbInit, hv]

/-! ### The claims -/

/-- C1 (counterexample). In the simple variant the clamp test reads the
PREVIOUS value: from the reachable state `demoPre` (progress 98, obtained by
seven firings of increment 14), the next firing with increment 14 has
candidate 98 + 14 = 112 ≥ 100, yet it publishes 112 — not 100 — keeps the
interval alive and stays in `downloading`. -/
theorem C1_counterexample :
    demoPre.status = Status.downloading ∧
    demoPre.downloadProgress = 98 ∧
    (100 : ℚ) ≤ demoPre.downloadProgress + 14 ∧
    (simpleTick 14 demoPre).downloadProgress = 112 ∧
    (simpleTick 14 demoPre).status = Status.downloading ∧
    (simpleTick 14 demoPre).timerActive = true ∧
    ¬(simpleTick 14 demoPre).downloadProgress = 100 := by
  rw [demoPre_eq]
  norm_num [simpleTick]

/-- C1 (amended). In the persistence-backed variant each tick behaves as the
claim states (relative to the rounded published value): when the candidate
reaches 100 the interval writes exactly 100 with the `complete` status and
stops; otherwise it writes `round candidate`, which never exceeds 100, and
keeps ticking.  In the simple variant the comparison is made against the
previous value instead: a tick whose previous value is below 100 always
publishes the unclamped candidate and continues, and only the tick after the
value has reached 100 publishes exactly 100, stops the interval and
completes. -/
theorem C1_amended :
    ∀ (jid fmt : String) (c inc : ℚ) (rest : List ℚ) (s : SimpleState),
      (0 ≤ c → 0 ≤ inc → c + inc < 100 →
        fbTickWrites jid fmt c (inc :: rest)
          = FbWrite.progress (round (c + inc)) :: fbTickWrites jid fmt (c + inc) rest
        ∧ 0 ≤ round (c + inc) ∧ round (c + inc) ≤ 100) ∧
      (100 ≤ c + inc →
        fbTickWrites jid fmt c (inc :: rest)
          = [FbWrite.completed 100 (mockDownloadUrl jid fmt)]) ∧
      (s.downloadProgress < 100 →
        simpleTick inc s = { s with downloadProgress := s.downloadProgress + inc }) ∧
      (100 ≤ s.downloadProgress →
        simpleTick inc s =
          { s with downloadProgress := 100, isDownloading := false,
                   status := Status.complete, timerActive := false }) := by
  intro jid fmt c inc rest s
  refine ⟨fun hc hi h100 => ⟨?_, round_nonneg_of_nonneg (by linarith),
      round_le_hundred h100⟩,
    fun h => ?_, fun h => simpleTick_of_lt h, fun h => simpleTick_of_ge h⟩
  · simp [fbTickWrites, not_le.mpr h100]
  · simp [fbTickWrites, h]

/-- C1 (witness): the amended tick laws evaluated at concrete inputs. -/
theorem C1_amended_witness :
    fbTickWrites "job1" "mp3-320" 0 [(5 : ℚ)]
      = FbWrite.progress (round ((0 : ℚ) + 5))
          :: fbTickWrites "job1" "mp3-320" ((0 : ℚ) + 5) []
    ∧ simpleTick 5 simpleInit
      = { simpleInit with downloadProgress := simpleInit.downloadProgress + 5 } := by
  have h := C1_amended "job1" "mp3-320" 0 5 [] simpleInit
  exact ⟨(h.1 le_rfl (by norm_num) (by norm_num)).1,
    h.2.2.1 (by norm_num [simpleInit])⟩

/-- C2 (counterexample). In the simple variant the published sequence of the
demo run is `[14, 28, 42, 56, 70, 84, 98, 112, 100]`: the value 112 exceeds
100, and it is followed by the smaller value 100, so the sequence is neither
bounded by 100 nor non-decreasing. -/
theorem C2_counterexample :
    demoDownloading.status = Status.downloading ∧
    demoPublished = [14, 28, 42, 56, 70, 84, 98, 112, 100] ∧
    demoPublished[7]? = some 112 ∧
    demoPublished[8]? = some 100 ∧
    ¬((112 : ℚ) ≤ 100) := by
  refine ⟨by rw [demoDownloading_eq], demoPublished_eq, ?_, ?_, by norm_num⟩
  · rw [demoPublished_eq]; rfl
  · rw [demoPublished_eq]; rfl

/-- C2 (amended). In the persistence-backed variant the written progress
values are non-decreasing and lie in `[0, 100]`.  In the simple variant the
published values lie in `[0, 115)` and each adjacent pair is non-decreasing
except that a value that overshot 100 is followed by the final clamped
100. -/
theorem C2_amended :
    (∀ (jid fmt : String) (c : ℚ) (incs : List ℚ), 0 ≤ c → (∀ i ∈ incs, 0 ≤ i) →
      (∀ w ∈ fbTickWrites jid fmt c incs,
        0 ≤ fbWriteProgress w ∧ fbWriteProgress w ≤ 100) ∧
      List.Chain' (fun a b => a ≤ b) ((fbTickWrites jid fmt c incs).map fbWriteProgress)) ∧
    (∀ (s : SimpleState) (incs : List ℚ), 0 ≤ s.downloadProgress →
      (∀ i ∈ incs, 0 ≤ i ∧ i < 15) →
      (∀ v ∈ simpleTicks s incs, 0 ≤ v ∧ v < 115) ∧
      List.Chain' (fun a b => a ≤ b ∨ (100 < a ∧ b = 100)) (simpleTicks s incs)) :=
  ⟨fun jid fmt c incs hc hall =>
    ⟨fbTickWrites_bounds jid fmt incs c hc hall, fbTickWrites_chain jid fmt incs c hc hall⟩,
   fun s incs hs hall =>
    ⟨simpleTicks_bounds incs s hs hall, simpleTicks_chain incs s hs hall⟩⟩

/-- C2 (witness): the amended run laws evaluated at concrete inputs. -/
theorem C2_amended_witness :
    List.Chain' (fun a b => a ≤ b)
      ((fbTickWrites "job1" "mp3-320" 0 [5]).map fbWriteProgress) ∧
    List.Chain' (fun a b => a ≤ b ∨ (100 < a ∧ b = 100))
      (simpleTicks demoDownloading [5]) := by
  constructor
  · exact (C2_amended.1 "job1" "mp3-320" 0 [5] le_rfl
      (by intro i hi; rw [List.mem_singleton] at hi; subst hi; norm_num)).2
  · exact (C2_amended.2 demoDownloading [5] (by rw [demoDownloading_eq])
      (by intro i hi; rw [List.mem_singleton] at hi; subst hi; norm_num)).2

/-- C3 (counterexample). The string `"youtube.com/\n"` has, after stripping,
the host `youtube.com` followed by `/` and one further character, so the
claimed shape accepts it; but JavaScript `.` does not match the line feed,
so the code's check rejects it. -/
theorem C3_counterexample :
    isValidYouTubeUrl "youtube.com/\n" = false ∧
    urlShapeSpec ("youtube.com/\n".data) = true := by
  decide

/-- C3 (amended). For every input string, the URL validity check accepts it
if and only if, after optionally stripping a leading `http://` or `https://`
protocol and an optional `www.` prefix, the remainder begins with
`youtube.com` or `youtu.be` followed by `/` and at least one further
character whose first character is not a line terminator (LF, CR, U+2028,
U+2029); the check depends only on the string's shape. -/
theorem C3_amended : ∀ s : String, isValidYouTubeUrl s = urlShapeAmended s.data :=
  fun s => matchProto_eq_amended s.data

/-- C4 (confirmed). For every input string failing the URL validity check,
an analyze request sets status `error` (the persistence variant also stores
the fixed message) and creates no job: no job identifier is generated, no
record is written, and every other field is unchanged. -/
theorem C4_invalid_analyze :
    ∀ (s : SimpleState) (fs : FbUi) (jid : String) (ts : ℕ),
      isValidYouTubeUrl s.url = false → isValidYouTubeUrl fs.url = false →
      simpleAnalyzeStart s = { s with status := Status.error } ∧
      fbHandleAnalyze fs jid ts
        = ({ fs with status := Status.error, errorMessage := some "Please enter a valid YouTube URL." }, none) := by
  intro s fs jid ts h1 h2
  constructor
  · simp [simpleAnalyzeStart, h1]
  · simp [fbHandleAnalyze, h2]

/-- C4 (witness): analyzing `"not a url"` in both variants. -/
theorem C4_invalid_analyze_witness :
    simpleAnalyzeStart demoBadSimple = { demoBadSimple with status := Status.error } ∧
    fbHandleAnalyze demoBadFb "job1" 0
      = ({ demoBadFb with status := Status.error, errorMessage := some "Please enter a valid YouTube URL." }, none) :=
  C4_invalid_analyze demoBadSimple demoBadFb "job1" 0 (by decide) (by decide)

/-- C5 (counterexample). In the simple variant the analyze sequence does not
reset progress: from the reachable completed state `demoComplete`
(progress 100, valid URL still entered) a new analyze request reaches
`ready` with progress still 100, not 0. -/
theorem C5_counterexample :
    isValidYouTubeUrl demoComplete.url = true ∧
    demoComplete.downloadProgress = 100 ∧
    (simpleAnalyzeStart demoComplete).status = Status.analyzing ∧
    (simpleAnalyzeFinish (simpleAnalyzeStart demoComplete)).status = Status.ready ∧
    (simpleAnalyzeFinish (simpleAnalyzeStart demoComplete)).downloadProgress = 100 ∧
    ¬((100 : ℚ) = 0) := by
  have hv : isValidYouTubeUrl "https://youtu.be/abc123" = true := by decide
  refine ⟨?_, ?_, ?_, ?_, ?_, by norm_num⟩ <;>
    simp [demoComplete_eq, simpleAnalyzeStart, simpleAnalyzeFinish, hv]

/-- C5 (amended). For every input string passing the URL validity check, an
analyze request sets status `analyzing` (persistence variant: provided a
user is authenticated, also creating the job record) and after the fixed
delay the status becomes `ready`; in the persistence variant the snapshot
of the delayed write delivers progress 0 and a cleared error message, while
in the simple variant the progress value is left unchanged by the analyze
sequence and there is no stored error message. -/
theorem C5_amended :
    (∀ s : SimpleState, isValidYouTubeUrl s.url = true →
      (simpleAnalyzeStart s).status = Status.analyzing ∧
      simpleAnalyzeFinish (simpleAnalyzeStart s)
        = { s with isAnalyzing := false, status := Status.ready } ∧
      (simpleAnalyzeFinish (simpleAnalyzeStart s)).downloadProgress
        = s.downloadProgress) ∧
    (∀ (fs : FbUi) (uid jid : String) (ts : ℕ),
      isValidYouTubeUrl fs.url = true → fs.userId = some uid →
      (fbHandleAnalyze fs jid ts).1.status = Status.analyzing ∧
      (fbHandleAnalyze fs jid ts).2 = some (jid, initialJob fs.url uid ts) ∧
      JobStep (initialJob fs.url uid ts) (fbAnalyzeReadyWrite (initialJob fs.url uid ts)) ∧
      (fbApplySnapshot (fbAnalyzeFinish (fbHandleAnalyze fs jid ts).1)
          (fbAnalyzeReadyWrite (initialJob fs.url uid ts))).status = Status.ready ∧
      (fbApplySnapshot (fbAnalyzeFinish (fbHandleAnalyze fs jid ts).1)
          (fbAnalyzeReadyWrite (initialJob fs.url uid ts))).downloadProgress = 0 ∧
      (fbApplySnapshot (fbAnalyzeFinish (fbHandleAnalyze fs jid ts).1)
          (fbAnalyzeReadyWrite (initialJob fs.url uid ts))).errorMessage = none) := by
  constructor
  · intro s hv
    refine ⟨?_, ?_, ?_⟩ <;> simp [simpleAnalyzeStart, simpleAnalyzeFinish, hv]
  · intro fs uid jid ts hv hu
    refine ⟨?_, ?_, JobStep.ready rfl, ?_, ?_, ?_⟩ <;>
      simp [fbHandleAnalyze, fbAnalyzeFinish, fbApplySnapshot, fbAnalyzeReadyWrite,
        initialJob, hv, hu]

/-- C5 (witness): a valid analyze request in both variants. -/
theorem C5_amended_witness :
    (simpleAnalyzeStart demoReady).status = Status.analyzing ∧
    (fbHandleAnalyze demoFbAuthed "job1" 0).1.status = Status.analyzing := by
  constructor
  · exact (C5_amended.1 demoReady (by rw [demoReady_eq]; decide)).1
  · exact (C5_amended.2 demoFbAuthed "uid1" "job1" 0 (by decide) rfl).1

/-- C6 (confirmed). A download request with an empty format selection is a
no-op in both variants: the state is returned unchanged and, in the
persistence variant, no record is written. -/
theorem C6_download_noop :
    ∀ (s : SimpleState) (fs : FbUi), s.selectedFormat = "" → fs.selectedFormat = "" →
      simpleDownloadStart s = s ∧ fbHandleDownload fs = (fs, false) := by
  intro s fs h1 h2
  constructor
  · simp [simpleDownloadStart, h1]
  · simp [fbHandleDownload, h2]

/-- C6 (witness): the download request is a no-op at the initial states. -/
theorem C6_download_noop_witness :
    simpleDownloadStart simpleInit = simpleInit ∧ fbHandleDownload fbInit = (fbInit, false) :=
  C6_download_noop simpleInit fbInit rfl rfl

/-- C7 (counterexample). `error` is left without a reset: after an invalid
analyze (status `error`), correcting the URL and pressing Analyze again
drives the simple variant to `analyzing`; in the persistence variant merely
typing a valid URL while in `error` already returns the machine to `idle`. -/
theorem C7_counterexample :
    (simpleAnalyzeStart (simpleUrlChange simpleInit "x")).status = Status.error ∧
    (simpleAnalyzeStart (simpleUrlChange
        (simpleAnalyzeStart (simpleUrlChange simpleInit "x"))
        "https://youtu.be/abc123")).status = Status.analyzing ∧
    Status.analyzing ≠ Status.error ∧
    fbErrDemo.status = Status.error ∧
    (fbUrlChange fbErrDemo "https://youtu.be/abc123").status = Status.idle := by
  refine ⟨by decide, by decide, by decide, by rw [fbErrDemo_eq], by decide⟩

/-- C7 (amended). From `error` and `complete` the explicit reset returns
the machine to `idle`, but these states are not terminal: an analyze
request leaves them (to `analyzing` for a valid URL, to `error` for an
invalid one), a download request with a non-empty format leaves them to
`downloading` in the simple variant, and in the persistence variant typing
a valid URL while in `error` returns the machine to `idle`. -/
theorem C7_amended :
    (∀ s : SimpleState, s.status = Status.error ∨ s.status = Status.complete →
      (simpleReset s).status = Status.idle ∧
      (isValidYouTubeUrl s.url = true → (simpleAnalyzeStart s).status = Status.analyzing) ∧
      (isValidYouTubeUrl s.url = false → (simpleAnalyzeStart s).status = Status.error) ∧
      (s.selectedFormat ≠ "" → (simpleDownloadStart s).status = Status.downloading)) ∧
    (∀ (fs : FbUi) (v : String), fs.status = Status.error → isValidYouTubeUrl v = true →
      (fbUrlChange fs v).status = Status.idle) ∧
    (∀ fs : FbUi, (fbReset fs).status = Status.idle) := by
  refine ⟨fun s _ => ⟨rfl, fun hv => ?_, fun hv => ?_, fun hf => ?_⟩,
    fun fs v he hv => ?_, fun fs => rfl⟩
  · simp [simpleAnalyzeStart, hv]
  · simp [simpleAnalyzeStart, hv]
  · simp [simpleDownloadStart, hf]
  · simp [fbUrlChange, he, hv]

/-- C7 (witness): the amended transitions evaluated at reachable states in
`complete` and `error`. -/
theorem C7_amended_witness :
    (simpleReset demoComplete).status = Status.idle ∧
    (simpleDownloadStart demoComplete).status = Status.downloading ∧
    (fbUrlChange fbErrDemo "https://youtu.be/abc123").status = Status.idle := by
  have h1 := C7_amended.1 demoComplete (Or.inr (by rw [demoComplete_eq]))
  exact ⟨h1.1, h1.2.2.2 (by rw [demoComplete_eq]; decide),
    C7_amended.2.1 fbErrDemo "https://youtu.be/abc123" (by rw [fbErrDemo_eq]) (by decide)⟩

/-- C8 (counterexample). A failed sign-in stores a non-empty error message
while the status stays `idle`, so a reachable UI state of the persistence
variant has an error message without the `error` status. -/
theorem C8_counterexample :
    (fbAuthFail fbInit).errorMessage = some "Authentication failed. Please try again." ∧
    (fbAuthFail fbInit).status = Status.idle ∧
    Status.idle ≠ Status.error := by
  exact ⟨rfl, rfl, by decide⟩

/-- C8 (amended). The invariant holds of every reachable persisted job
record: the result locator is set only when the record's status is
`complete`, and the record's error message is set only when its status is
`error`.  (The UI mirror can violate it transiently: authentication and
precondition failures store a message while the status stays `idle`, and a
re-analysis from `complete` briefly retains the old locator.) -/
theorem C8_amended :
    ∀ r : JobRecord, JobReachable r →
      (r.downloadUrl ≠ none → r.status = Status.complete) ∧
      (r.errorMessage ≠ none → r.status = Status.error) := by
  intro r h
  induction h with
  | init u uid ts => simp [initialJob]
  | step hr hstep ih =>
    cases hstep with
    | ready h1 =>
      constructor
      · intro hd
        have hc := ih.1 hd
        rw [h1] at hc
        exact absurd hc (by decide)
      · intro he
        simp [fbAnalyzeReadyWrite] at he
    | startDownload fmt h1 hf =>
      constructor
      · intro hd
        have hc := ih.1 hd
        rw [h1] at hc
        exact absurd hc (by decide)
      · intro he
        simp at he
    | tick c h1 hc =>
      constructor
      · intro hd
        have h2 := ih.1 hd
        rw [h1] at h2
        exact absurd h2 (by decide)
      · intro he
        have h2 := ih.2 he
        rw [h1] at h2
        exact absurd h2 (by decide)
    | completed jid h1 =>
      constructor
      · intro _
        rfl
      · intro he
        simp at he
    | failWrite h1 =>
      constructor
      · intro hd
        have h2 := ih.1 hd
        rw [h1] at h2
        exact absurd h2 (by decide)
      · intro _
        rfl

/-- C8 (witness): the record invariant at a freshly created job. -/
theorem C8_amended_witness :
    ((initialJob "https://youtu.be/abc123" "uid1" 0).downloadUrl ≠ none →
      (initialJob "https://youtu.be/abc123" "uid1" 0).status = Status.complete) ∧
    ((initialJob "https://youtu.be/abc123" "uid1" 0).errorMessage ≠ none →
      (initialJob "https://youtu.be/abc123" "uid1" 0).status = Status.error) :=
  C8_amended _ (JobReachable.init _ _ _)

/-- C9 (confirmed). From `complete` or `error`, the reset yields status
`idle`, progress 0, empty format selection, empty URL input and — in the
persistence variant — no error message, no result locator and no job id. -/
theorem C9_reset :
    ∀ (s : SimpleState) (fs : FbUi),
      s.status = Status.complete ∨ s.status = Status.error →
      fs.status = Status.complete ∨ fs.status = Status.error →
      (simpleReset s).status = Status.idle ∧ (simpleReset s).downloadProgress = 0 ∧
      (simpleReset s).selectedFormat = "" ∧ (simpleReset s).url = "" ∧
      (fbReset fs).status = Status.idle ∧ (fbReset fs).downloadProgress = 0 ∧
      (fbReset fs).selectedFormat = "" ∧ (fbReset fs).url = "" ∧
      (fbReset fs).errorMessage = none ∧ (fbReset fs).currentDownloadUrl = none ∧
      (fbReset fs).jobId = none := by
  intro s fs _ _
  exact ⟨rfl, rfl, rfl, rfl, rfl, rfl, rfl, rfl, rfl, rfl, rfl⟩

/-- C9 (witness): reset applied to reachable `complete` and `error`
states. -/
theorem C9_reset_witness :
    (simpleReset demoComplete).status = Status.idle ∧
    (simpleReset demoComplete).downloadProgress = 0 ∧
    (simpleReset demoComplete).selectedFormat = "" ∧
    (simpleReset demoComplete).url = "" ∧
    (fbReset fbErrDemo).status = Status.idle ∧
    (fbReset fbErrDemo).downloadProgress = 0 ∧
    (fbReset fbErrDemo).selectedFormat = "" ∧
    (fbReset fbErrDemo).url = "" ∧
    (fbReset fbErrDemo).errorMessage = none ∧
    (fbReset fbErrDemo).currentDownloadUrl = none ∧
    (fbReset fbErrDemo).jobId = none :=
  C9_reset demoComplete fbErrDemo (Or.inl (by rw [demoComplete_eq]))
    (Or.inr (by rw [fbErrDemo_eq]))

/-- C10 (confirmed). In the simple variant the download operation's only
guard is a non-empty format selection: whatever the current status
(the `ready`-only gate exists solely in the rendering layer, which shows the
button only when status is `ready`), a download request with a format
selected enters `downloading` with progress 0 and starts the interval. -/
theorem C10_download_guard :
    ∀ s : SimpleState, s.selectedFormat ≠ "" →
      (simpleDownloadStart s).status = Status.downloading ∧
      (simpleDownloadStart s).downloadProgress = 0 ∧
      (simpleDownloadStart s).isDownloading = true ∧
      (simpleDownloadStart s).timerActive = true := by
  intro s h
  refine ⟨?_, ?_, ?_, ?_⟩ <;> simp [simpleDownloadStart, h]

/-- C10 (witness): the download request fires even from the `complete`
state `demoComplete`, where the rendering layer does not show the
button. -/
theorem C10_download_guard_witness :
    (simpleDownloadStart demoComplete).status = Status.downloading ∧
    (simpleDownloadStart demoComplete).downloadProgress = 0 ∧
    (simpleDownloadStart demoComplete).isDownloading = true ∧
    (simpleDownloadStart demoComplete).timerActive = true :=
  C10_download_guard demoComplete (by rw [demoComplete_eq]; decide)
